import Mathlib

/-!
Verification of the api-gateway core of `file-upload-graphql-microservices`:
the relay dispatcher, the error translator and the envelope-encryption layer
(`relay`, `handleError`, `encryptKey`, `decryptKey`, `encryptData`,
`decryptData`, `decryptRequest`, `encryptResponse` from the gateway's utility
module).

Modelling conventions.
* JSON values are the inductive `Json`; `JSON.stringify` is `stringify` and
  `JSON.parse` is `parseJson`, a total fuel-driven parser covering the JSON
  fragment the gateway exchanges (strings with the common escapes, integers,
  `null`, booleans, arrays, objects).  `JSON.parse` throwing is modelled by
  `parseJson` returning `none`.
* Node's `crypto` module is modelled symbolically.  RSA key PEM strings are
  interpreted by `parseRsaKey`; an RSA ciphertext (a base64 string on the
  wire) is a term of `RsaCipher` recording which exponent produced it, so
  `publicDecrypt` (the operation `decryptKey` performs) only opens blobs made
  by `privateEncrypt`, exactly as in Node, and fails on `publicEncrypt`
  output with a padding error.  A symmetric ciphertext is a `SymCipher` term
  recording algorithm, key, iv and plaintext; `createDecipheriv` key/iv
  length checks are in `algKeyIvLen`.
* Thrown JS exceptions become `Except.error`; the composite operations return
  their result together with the list of cryptographic operations they
  performed (`CryptoOp`), which lets "performs no cryptographic call" claims
  be stated.
* The gateway's `errors` module is not among the sources; its classes are
  modelled from the spec (see `AppError`).
-/

namespace Gateway

/-- A JSON value: the payloads, account records and error envelopes the
gateway passes around. -/
inductive Json where
  | null
  | bool (b : Bool)
  | num (n : Int)
  | str (s : String)
  | arr (elements : List Json)
  | obj (fields : List (String × Json))

/-- Characters `JSON.stringify` escapes in our fragment (quote, backslash). -/
def escapeJsonChar (c : Char) : List Char :=
  if c = '"' ∨ c = '\\' then ['\\', c] else [c]

/-- String-escaping step of `JSON.stringify`. -/
def escapeJson (s : String) : String :=
  String.mk (s.data.flatMap escapeJsonChar)

mutual

/-- Model of `JSON.stringify` on the JSON fragment used by the gateway. -/
def stringify : Json → String
  | .null => "null"
  | .bool b => if b then "true" else "false"
  | .num n => toString n
  | .str s => "\"" ++ escapeJson s ++ "\""
  | .arr xs => "[" ++ stringifyElems xs ++ "]"
  | .obj fs => "\x7b" ++ stringifyFields fs ++ "\x7d"

/-- Comma-separated serialization of array elements. -/
def stringifyElems : List Json → String
  | [] => ""
  | [x] => stringify x
  | x :: y :: xs => stringify x ++ "," ++ stringifyElems (y :: xs)

/-- Comma-separated serialization of object members. -/
def stringifyFields : List (String × Json) → String
  | [] => ""
  | [(k, v)] => "\"" ++ escapeJson k ++ "\":" ++ stringify v
  | (k, v) :: f :: fs =>
      "\"" ++ escapeJson k ++ "\":" ++ stringify v ++ "," ++ stringifyFields (f :: fs)

end

/-- JSON whitespace. -/
def isWsChar (c : Char) : Bool :=
  c = ' ' ∨ c = '\n' ∨ c = '\t' ∨ c = '\r'

/-- Drop leading whitespace. -/
def skipWs : List Char → List Char
  | [] => []
  | c :: cs => if isWsChar c then skipWs cs else c :: cs

/-- Split a run of decimal digits off the front of the input. -/
def takeDigits : List Char → List Char × List Char
  | [] => ([], [])
  | c :: cs =>
      if c.isDigit then
        let (ds, r) := takeDigits cs
        (c :: ds, r)
      else ([], c :: cs)

/-- Numeric value of a digit run. -/
def digitsToNat (ds : List Char) : Nat :=
  ds.foldl (fun acc c => acc * 10 + (c.toNat - 48)) 0

/-- Decode one character escape inside a JSON string literal. -/
def unescapeChar? (c : Char) : Option Char :=
  if c = '"' then some '"'
  else if c = '\\' then some '\\'
  else if c = '/' then some '/'
  else if c = 'n' then some '\n'
  else if c = 't' then some '\t'
  else if c = 'r' then some '\r'
  else if c = 'b' then some (Char.ofNat 8)
  else if c = 'f' then some (Char.ofNat 12)
  else none

/-- Parse the body of a JSON string literal (after the opening quote),
returning the decoded characters and the rest of the input. -/
def parseStringBody : Nat → List Char → Option (List Char × List Char)
  | 0, _ => none
  | _ + 1, [] => none
  | fuel + 1, c :: cs =>
      if c = '"' then some ([], cs)
      else if c = '\\' then
        match cs with
        | [] => none
        | e :: cs2 =>
            match unescapeChar? e with
            | none => none
            | some d => (parseStringBody fuel cs2).map (fun p => (d :: p.1, p.2))
      else (parseStringBody fuel cs).map (fun p => (c :: p.1, p.2))

mutual

/-- Parse one JSON value; fuel makes the recursion total. -/
def parseVal : Nat → List Char → Option (Json × List Char)
  | 0, _ => none
  | fuel + 1, input =>
      match skipWs input with
      | [] => none
      | c :: cs =>
          if c = '"' then
            (parseStringBody fuel cs).map (fun p => (.str (String.mk p.1), p.2))
          else if c = 'n' then
            match cs with
            | 'u' :: 'l' :: 'l' :: r => some (.null, r)
            | _ => none
          else if c = 't' then
            match cs with
            | 'r' :: 'u' :: 'e' :: r => some (.bool true, r)
            | _ => none
          else if c = 'f' then
            match cs with
            | 'a' :: 'l' :: 's' :: 'e' :: r => some (.bool false, r)
            | _ => none
          else if c = '-' then
            match takeDigits cs with
            | ([], _) => none
            | (ds, r) => some (.num (-(digitsToNat ds : Int)), r)
          else if c.isDigit then
            match takeDigits (c :: cs) with
            | (ds, r) => some (.num (digitsToNat ds : Int), r)
          else if c = '[' then
            match skipWs cs with
            | ']' :: r => some (.arr [], r)
            | t =>
                match parseVal fuel t with
                | none => none
                | some (v, r) =>
                    match parseElemsRest fuel r with
                    | none => none
                    | some (vs, r2) => some (.arr (v :: vs), r2)
          else if c = '\x7b' then
            match skipWs cs with
            | '\x7d' :: r => some (.obj [], r)
            | t =>
                match parseField fuel t with
                | none => none
                | some (f, r) =>
                    match parseFieldsRest fuel r with
                    | none => none
                    | some (fs, r2) => some (.obj (f :: fs), r2)
          else none

/-- After one array element: either the closing bracket or a comma and more. -/
def parseElemsRest : Nat → List Char → Option (List Json × List Char)
  | 0, _ => none
  | fuel + 1, input =>
      match skipWs input with
      | ']' :: r => some ([], r)
      | ',' :: r =>
          match parseVal fuel r with
          | none => none
          | some (v, r2) =>
              match parseElemsRest fuel r2 with
              | none => none
              | some (vs, r3) => some (v :: vs, r3)
      | _ => none

/-- Parse one `"key": value` object member. -/
def parseField : Nat → List Char → Option ((String × Json) × List Char)
  | 0, _ => none
  | fuel + 1, input =>
      match skipWs input with
      | '"' :: cs =>
          match parseStringBody fuel cs with
          | none => none
          | some (k, r) =>
              match skipWs r with
              | ':' :: r2 =>
                  match parseVal fuel r2 with
                  | none => none
                  | some (v, r3) => some ((String.mk k, v), r3)
              | _ => none
      | _ => none

/-- After one object member: either the closing brace or a comma and more. -/
def parseFieldsRest : Nat → List Char → Option (List (String × Json) × List Char)
  | 0, _ => none
  | fuel + 1, input =>
      match skipWs input with
      | '\x7d' :: r => some ([], r)
      | ',' :: r =>
          match parseField fuel r with
          | none => none
          | some (f, r2) =>
              match parseFieldsRest fuel r2 with
              | none => none
              | some (fs, r3) => some (f :: fs, r3)
      | _ => none

end

/-- Model of `JSON.parse`: `none` when `JSON.parse` would throw. -/
def parseJson (s : String) : Option Json :=
  match parseVal (2 * s.length + 2) s.data with
  | none => none
  | some (v, r) => if skipWs r = [] then some v else none

/-- Property access `j.field` on a parsed JSON value (`undefined` is `none`). -/
def jget (j : Json) (field : String) : Option Json :=
  match j with
  | .obj fs => fs.lookup field
  | _ => none

/-- lodash `get(j, 'a.b')`: two-step path access, `undefined` when any hop is
missing. -/
def lodashGet2 (j : Json) (p1 p2 : String) : Option Json :=
  match jget j p1 with
  | none => none
  | some inner => jget inner p2

/-- A JSON value as a JS string, `none` otherwise (a non-string where the
crypto API needs a string makes Node throw). -/
def asStr : Option Json → Option String
  | some (.str s) => some s
  | _ => none

/-! Section: Model of Node `crypto` (RSA with PKCS#1 v1.5, AES via `createCipheriv`) -/

/-- What a PEM key string denotes: which keypair it belongs to, the modulus
size in bytes, and whether it is the private member of the pair. -/
structure RsaKeyInfo where
  id : Nat
  size : Nat
  isPriv : Bool
deriving DecidableEq

/-- Split a character list at a separator. -/
def splitSep (sep : Char) : List Char → List Char → List (List Char)
  | [], acc => [acc.reverse]
  | c :: cs, acc =>
      if c = sep then acc.reverse :: splitSep sep cs [] else splitSep sep cs (c :: acc)

/-- Numeric value of a nonempty run of digits, `none` otherwise. -/
def decDigits? (cs : List Char) : Option Nat :=
  if cs ≠ [] ∧ cs.all Char.isDigit then some (digitsToNat cs) else none

/-- Model of PEM parsing: a key string has the shape
`RSAKEY:<id>:<size>:pub` or `RSAKEY:<id>:<size>:priv`; anything else makes
the crypto API throw an unsupported-key error. -/
def parseRsaKey (s : String) : Option RsaKeyInfo :=
  match splitSep ':' s.data [] with
  | [tag, i, sz, kind] =>
      if String.mk tag = "RSAKEY" then
        match decDigits? i, decDigits? sz with
        | some i, some sz =>
            if String.mk kind = "pub" then some ⟨i, sz, false⟩
            else if String.mk kind = "priv" then some ⟨i, sz, true⟩
            else none
        | _, _ => none
      else none
  | _ => none

/-- The public key string of keypair `i` with modulus size `sz` bytes. -/
def rsaPubStr (i sz : Nat) : String :=
  "RSAKEY:" ++ toString i ++ ":" ++ toString sz ++ ":pub"

/-- The private key string of keypair `i` with modulus size `sz` bytes. -/
def rsaPrivStr (i sz : Nat) : String :=
  "RSAKEY:" ++ toString i ++ ":" ++ toString sz ++ ":priv"

/-- An RSA ciphertext (a base64 blob on the wire), symbolically: it records
whether it was produced by the encrypt-with-public-exponent operation
(`crypto.publicEncrypt`, PKCS#1 type 2 padding) or the
encrypt-with-private-exponent operation (`crypto.privateEncrypt`, type 1
padding), under which keypair, and of what plaintext. -/
inductive RsaCipher where
  | pubEnc (keyId : Nat) (msg : String)
  | privEnc (keyId : Nat) (msg : String)
deriving DecidableEq

/-- Model of `crypto.publicEncrypt` with `RSA_PKCS1_PADDING`.  Node accepts a
private key here too (it derives the public part).  PKCS#1 v1.5 leaves
`size - 11` bytes for the message. -/
def cryptoPublicEncrypt (key msg : String) : Except String RsaCipher :=
  match parseRsaKey key with
  | none => .error "publicEncrypt: unsupported key"
  | some k =>
      if k.size < msg.length + 11 then .error "publicEncrypt: data too large for key size"
      else .ok (.pubEnc k.id msg)

/-- Model of `crypto.publicDecrypt` with `RSA_PKCS1_PADDING`: applies the
public exponent, so it only opens blobs made with the private exponent
(`privateEncrypt`); on `publicEncrypt` output the type 1 padding check
fails.  A private key is accepted (its public part is derived). -/
def cryptoPublicDecrypt (key : String) (c : RsaCipher) : Except String String :=
  match parseRsaKey key with
  | none => .error "publicDecrypt: unsupported key"
  | some k =>
      match c with
      | .privEnc i m => if i = k.id then .ok m else .error "publicDecrypt: decryption failed"
      | .pubEnc _ _ => .error "publicDecrypt: padding check failed"

/-- Model of `crypto.privateEncrypt` (requires the private key). -/
def cryptoPrivateEncrypt (key msg : String) : Except String RsaCipher :=
  match parseRsaKey key with
  | none => .error "privateEncrypt: unsupported key"
  | some k =>
      if !k.isPriv then .error "privateEncrypt: not a private key"
      else if k.size < msg.length + 11 then .error "privateEncrypt: data too large for key size"
      else .ok (.privEnc k.id msg)

/-- Model of `crypto.privateDecrypt` (requires the private key; opens
`publicEncrypt` output of the same pair). -/
def cryptoPrivateDecrypt (key : String) (c : RsaCipher) : Except String String :=
  match parseRsaKey key with
  | none => .error "privateDecrypt: unsupported key"
  | some k =>
      if !k.isPriv then .error "privateDecrypt: not a private key"
      else
        match c with
        | .pubEnc i m => if i = k.id then .ok m else .error "privateDecrypt: decryption failed"
        | .privEnc _ _ => .error "privateDecrypt: padding check failed"

/-- A symmetric ciphertext (a base64 string on the wire), symbolically:
algorithm, key, iv and plaintext that produced it. -/
structure SymCipher where
  algorithm : String
  key : String
  iv : String
  plaintext : String
deriving DecidableEq

/-- Key and iv byte lengths `createCipheriv`/`createDecipheriv` require per
algorithm identifier (`none`: unknown cipher, Node throws). -/
def algKeyIvLen (alg : String) : Option (Nat × Nat) :=
  if alg = "aes-256-cbc" then some (32, 16)
  else if alg = "aes-192-cbc" then some (24, 16)
  else if alg = "aes-128-cbc" then some (16, 16)
  else none

/-- Lowercase hex digit of a value below 16. -/
def hexDigitChar (n : Nat) : Char :=
  if n < 10 then Char.ofNat (48 + n) else Char.ofNat (87 + n)

/-- Two lowercase hex characters of one byte. -/
def byteHex (b : Nat) : List Char :=
  [hexDigitChar (b / 16 % 16), hexDigitChar (b % 16)]

/-- Model of `Buffer.toString('hex')` on a byte list. -/
def hexEncode (bytes : List Nat) : String :=
  String.mk (bytes.flatMap byteHex)

/-- Model of JS `String.prototype.slice(0, n)`. -/
def jsSlice (s : String) (n : Nat) : String :=
  String.mk (s.data.take n)

/-- One cryptographic operation, for the operation log of the composite
functions ("performs no cryptographic work" claims). -/
inductive CryptoOp where
  | randomBytes (n : Nat)
  | symEncrypt
  | symDecrypt
  | rsaPublicEncrypt
  | rsaPublicDecrypt
deriving DecidableEq

/-- Modelled from the spec: the error classes of the gateway's `errors`
module, which is not among the sources (only its import is).  Spec §7 gives
the taxonomy: AuthenticationError, ResourceNotFound and ServiceError carry a
message; ParserError carries message, extensions and locations; `jsError`
stands for a built-in JS exception (TypeError/SyntaxError) escaping with its
message. -/
inductive AppError where
  | authenticationError (message : String)
  | resourceNotFound (message : String)
  | parserError (message extensions locations : Option Json)
  | serviceError (message : String)
  | jsError (message : String)

/-! Section: The gateway utility module (embedded from the source) -/

/-- Source `encryptData`: `createCipheriv(algorithm, symmetricKey, iv)` then
encrypt `data`, base64.  Fails (throws) exactly when `createCipheriv`
rejects the algorithm or the key/iv lengths. -/
def encryptData (data symmetricKey iv algorithm : String) : Except String SymCipher :=
  match algKeyIvLen algorithm with
  | none => .error "Unknown cipher"
  | some (kl, il) =>
      if symmetricKey.length ≠ kl then .error "Invalid key length"
      else if iv.length ≠ il then .error "Invalid initialization vector"
      else .ok ⟨algorithm, symmetricKey, iv, data⟩

/-- Source `decryptData`: `createDecipheriv(algorithm, symmetricKey, iv)`
then decrypt.  In the symbolic model decryption succeeds exactly when
algorithm, key and iv match the ones the ciphertext was made with. -/
def decryptData (encryptedData : SymCipher) (symmetricKey iv algorithm : String) :
    Except String String :=
  match algKeyIvLen algorithm with
  | none => .error "Unknown cipher"
  | some (kl, il) =>
      if symmetricKey.length ≠ kl then .error "Invalid key length"
      else if iv.length ≠ il then .error "Invalid initialization vector"
      else if encryptedData.algorithm = algorithm ∧ encryptedData.key = symmetricKey ∧
          encryptedData.iv = iv then
        .ok encryptedData.plaintext
      else .error "error:06065064:digital envelope routines:EVP_DecryptFinal_ex:bad decrypt"

/-- Source `encryptKey`: `crypto.publicEncrypt` of the session blob under
`RSA_PKCS1_PADDING`, base64. -/
def encryptKey (publicKey symmetricKey : String) : Except String RsaCipher :=
  cryptoPublicEncrypt publicKey symmetricKey

/-- Source `decryptKey`: `crypto.publicDecrypt` of the wrapped blob under
`RSA_PKCS1_PADDING` (note: the public-exponent operation, with a parameter
named `publicKey` — not `privateDecrypt`). -/
def decryptKey (publicKey : String) (encryptedKey : RsaCipher) : Except String String :=
  cryptoPublicDecrypt publicKey encryptedKey

/-- The wire shape `{encryptedData, encryptedKey}`; a missing field is JS
`undefined`. -/
structure EncryptedPayload where
  encryptedData : Option SymCipher := none
  encryptedKey : Option RsaCipher := none

/-- The `try` block of source `decryptRequest`, with its operation log:
unwrap `encryptedKey` with `decryptKey`, `JSON.parse` the result, read `key`
and `iv` off it, then `decryptData`.  Any `Except.error` is a thrown JS
error to be caught by the handler around it. -/
def decryptRequestBody (encryptedData : SymCipher) (encryptedKey : RsaCipher)
    (publicKey algorithm : String) : Except String String × List CryptoOp :=
  match decryptKey publicKey encryptedKey with
  | .error e => (.error e, [.rsaPublicDecrypt])
  | .ok blob =>
      match parseJson blob with
      | none => (.error ("Unexpected token in JSON: " ++ blob), [.rsaPublicDecrypt])
      | some parsed =>
          match asStr (jget parsed "key"), asStr (jget parsed "iv") with
          | some key, some iv =>
              (decryptData encryptedData key iv algorithm, [.rsaPublicDecrypt, .symDecrypt])
          | _, _ =>
              (.error "The key argument must be of type string", [.rsaPublicDecrypt])

/-- Source `decryptRequest`: reject when `encryptedData` or `encryptedKey`
is missing, otherwise run the `try` block and re-raise any failure as an
`AuthenticationError` carrying the underlying message.  Paired with the list
of cryptographic operations performed. -/
def decryptRequest (data : EncryptedPayload) (publicKey algorithm : String) :
    Except AppError String × List CryptoOp :=
  match data.encryptedData, data.encryptedKey with
  | some encryptedData, some encryptedKey =>
      match decryptRequestBody encryptedData encryptedKey publicKey algorithm with
      | (.ok plain, ops) => (.ok plain, ops)
      | (.error e, ops) => (.error (.authenticationError e), ops)
  | _, _ => (.error (.authenticationError "encrypted data, encrypted key cannot null"), [])

/-- The Redis credential store, as the key/value map `redis.get` reads. -/
def redisGet (redis : List (String × String)) (key : String) : Option String :=
  redis.lookup key

/-- Source `encryptResponse`.  The two `crypto.randomBytes` draws are passed
in explicitly (`rand32`, `rand16`: the 32- and 16-byte RNG outputs), making
the freshly generated session material an explicit input of the model.
Returns the result (or the thrown error) with the operation log. -/
def encryptResponse (redis : List (String × String)) (responseData : Json)
    (apiKey algorithm : String) (rand32 rand16 : List Nat) :
    Except AppError EncryptedPayload × List CryptoOp :=
  match redisGet redis apiKey with
  | none => (.error (.resourceNotFound "Invalid api key"), [])
  | some apiKeyData =>
      match parseJson apiKeyData with
      | none => (.error (.jsError ("Unexpected token in JSON: " ++ apiKeyData)), [])
      | some userData =>
          let publicKey := asStr (lodashGet2 userData "account" "publicKey")
          let symmetricKey := jsSlice (hexEncode rand32) 32
          let iv := jsSlice (hexEncode rand16) 16
          let opsGen : List CryptoOp := [.randomBytes 32, .randomBytes 16]
          match encryptData (stringify responseData) symmetricKey iv algorithm with
          | .error e => (.error (.jsError e), opsGen ++ [.symEncrypt])
          | .ok encryptedData =>
              let sessionBlob :=
                stringify (.obj [("key", .str symmetricKey), ("iv", .str iv)])
              match publicKey with
              | none =>
                  (.error (.jsError "The key argument must be of type string"),
                    opsGen ++ [.symEncrypt, .rsaPublicEncrypt])
              | some pk =>
                  match encryptKey pk sessionBlob with
                  | .error e => (.error (.jsError e), opsGen ++ [.symEncrypt, .rsaPublicEncrypt])
                  | .ok encryptedKey =>
                      (.ok ⟨some encryptedData, some encryptedKey⟩,
                        opsGen ++ [.symEncrypt, .rsaPublicEncrypt])

/-! Section: The relay dispatcher and the error translator (embedded from the source) -/

/-- The backend RPC reply `{data?, error?}`, both serialized JSON strings. -/
structure RpcResponse where
  data : Option String := none
  error : Option String := none

/-- JS truthiness of a possibly missing string (`undefined` and `""` are
falsy). -/
def truthy : Option String → Bool
  | none => false
  | some s => !(s = "")

/-- How the promise returned by `relay(url)(operation)` settles.
`unsettled`: `JSON.parse` threw inside the RPC callback, so neither
`resolve` nor `reject` is reached. -/
inductive RelayOutcome where
  | resolved (data : Json)
  | rejected (e : AppError)
  | unsettled

/-- Source `relay`, response-handling part: given the bound endpoint and the
backend reply, the outcome of the returned promise.  Order as in the source:
a truthy `error` field is parsed and rejected as a ParserError with the
`message`, `extensions` and `locations` read off the parsed value; then a
falsy `data` field rejects with a ServiceError naming the endpoint; else the
parsed `data` resolves the promise. -/
def relay (url : String) (response : RpcResponse) : RelayOutcome :=
  if truthy response.error then
    match parseJson (response.error.getD "") with
    | none => .unsettled
    | some parsedError =>
        .rejected (.parserError (jget parsedError "message") (jget parsedError "extensions")
          (jget parsedError "locations"))
  else if truthy response.data then
    match parseJson (response.data.getD "") with
    | none => .unsettled
    | some d => .resolved d
  else .rejected (.serviceError (url ++ " is not found"))

/-- An HTTP reply of the error translator: status plus JSON body. -/
structure HttpReply where
  status : Nat
  body : Json

/-- The single error entry `{code, message, ...rest}` the source
`handleError` builds: the error's `code` and `message` first, then every
other own field in order.  A missing `code`/`message` would be `undefined`
and is dropped by `res.json` serialization. -/
def handleErrorEntry (err : List (String × Json)) : List (String × Json) :=
  (match err.lookup "code" with | some c => [("code", c)] | none => []) ++
    (match err.lookup "message" with | some m => [("message", m)] | none => []) ++
    err.filter (fun f => f.1 ≠ "message" ∧ f.1 ≠ "code")

/-- Source `handleError`: always status 200 with body
`{errors: [{code, message, ...rest}]}`.  The error object is its list of own
enumerable fields in property order. -/
def handleError (err : List (String × Json)) : HttpReply :=
  ⟨200, .obj [("errors", .arr [.obj (handleErrorEntry err)])]⟩

/-! Section: Helper lemmas -/

/-- Filtering an association list with a predicate that keeps every entry
keyed `k` does not change what a lookup of `k` finds. -/
theorem lookup_filter_keep (p : String × Json → Bool) (l : List (String × Json))
    (k : String) (hp : ∀ v, p (k, v) = true) :
    (l.filter p).lookup k = l.lookup k := by
  induction l with
  | nil => rfl
  | cons f fs ih =>
      obtain ⟨a, b⟩ := f
      by_cases hk : a = k
      · subst hk
        rw [List.filter_cons, if_pos (hp b)]
        simp [List.lookup, ih]
      · have hne : (k == a) = false := by
          simp only [beq_eq_false_iff_ne, ne_eq]
          intro hc; exact hk hc.symm
        rw [List.filter_cons]
        by_cases hpf : p (a, b) = true
        · rw [if_pos hpf]; simp only [List.lookup, hne]; exact ih
        · rw [if_neg hpf]; rw [ih]; simp only [List.lookup, hne]

/-- The sixteen characters hex encoding can produce. -/
def hexAlphabet : List Char := "0123456789abcdef".data

/-- A hex digit of a value below 16 is in the hex alphabet. -/
theorem hexDigitChar_mem_hexAlphabet (n : Nat) (h : n < 16) :
    hexDigitChar n ∈ hexAlphabet := by
  interval_cases n <;> decide

/-- Every character of a byte's hex rendering is in the hex alphabet. -/
theorem byteHex_mem_hexAlphabet (b : Nat) (c : Char) (h : c ∈ byteHex b) :
    c ∈ hexAlphabet := by
  rcases h with _ | ⟨_, h⟩
  · exact hexDigitChar_mem_hexAlphabet _ (Nat.mod_lt _ (by norm_num))
  · rcases h with _ | ⟨_, h⟩
    · exact hexDigitChar_mem_hexAlphabet _ (Nat.mod_lt _ (by norm_num))
    · cases h

/-- Every character of a hex encoding is in the hex alphabet. -/
theorem hexEncode_mem_hexAlphabet (r : List Nat) (c : Char) (h : c ∈ (hexEncode r).data) :
    c ∈ hexAlphabet := by
  obtain ⟨b, _, hc⟩ := List.mem_flatMap.mp h
  exact byteHex_mem_hexAlphabet b c hc

/-- A hex encoding of `n` bytes has `2 * n` characters. -/
theorem hexEncode_length (r : List Nat) : (hexEncode r).length = 2 * r.length := by
  show (r.flatMap byteHex).length = 2 * r.length
  induction r with
  | nil => rfl
  | cons b bs ih =>
      simp only [List.flatMap_cons, List.length_append, List.length_cons, ih, byteHex,
        List.length_nil]
      ring

/-- Taking `2 * n` characters of a hex encoding is the hex encoding of the
first `n` bytes. -/
theorem jsSlice_hexEncode (n : Nat) (r : List Nat) :
    jsSlice (hexEncode r) (2 * n) = hexEncode (r.take n) := by
  show String.mk ((r.flatMap byteHex).take (2 * n)) = String.mk ((r.take n).flatMap byteHex)
  congr 1
  induction r generalizing n with
  | nil => simp
  | cons b bs ih =>
      cases n with
      | zero => simp
      | succ m =>
          have h2 : 2 * (m + 1) = (2 * m) + 1 + 1 := by ring
          simp only [List.flatMap_cons, byteHex, List.take_succ_cons, h2,
            List.cons_append, List.nil_append, List.take_succ_cons, ih]

/-- Characters of the hex alphabet need no JSON escaping. -/
theorem hexAlphabet_no_escape (c : Char) (h : c ∈ hexAlphabet) :
    escapeJsonChar c = [c] := by
  fin_cases h <;> decide

/-- A string whose characters need no escaping is its own JSON escape. -/
theorem escapeJson_eq_self (s : String) (h : ∀ c ∈ s.data, escapeJsonChar c = [c]) :
    escapeJson s = s := by
  show String.mk (s.data.flatMap escapeJsonChar) = s
  obtain ⟨data⟩ := s
  congr 1
  induction data with
  | nil => rfl
  | cons c cs ih =>
      simp only [List.flatMap_cons, h c (List.mem_cons_self c cs), List.cons_append,
        List.nil_append, List.cons.injEq, true_and]
      exact ih (fun d hd => h d (List.mem_cons_of_mem c hd))

/-- Inversion of a successful `encryptData`: the ciphertext records the
arguments, and key and iv had the lengths the algorithm requires. -/
theorem encryptData_ok_inv {data symmetricKey iv algorithm : String} {c : SymCipher}
    (h : encryptData data symmetricKey iv algorithm = .ok c) :
    c = ⟨algorithm, symmetricKey, iv, data⟩ ∧
      ∃ kl il, algKeyIvLen algorithm = some (kl, il) ∧
        symmetricKey.length = kl ∧ iv.length = il := by
  unfold encryptData at h
  split at h
  · cases h
  case h_2 kl il heq =>
    split at h
    · cases h
    split at h
    · cases h
    injection h with h2
    exact ⟨h2.symm, kl, il, heq, by omega, by omega⟩

/-- Inversion of a successful `encryptKey`: the key string parsed, the blob
fit the modulus, and the result is the public-encryption of the blob under
that keypair. -/
theorem encryptKey_ok_inv {publicKey symmetricKey : String} {c : RsaCipher}
    (h : encryptKey publicKey symmetricKey = .ok c) :
    ∃ info, parseRsaKey publicKey = some info ∧
      symmetricKey.length + 11 ≤ info.size ∧ c = .pubEnc info.id symmetricKey := by
  unfold encryptKey cryptoPublicEncrypt at h
  split at h
  · cases h
  case h_2 info heq =>
    split at h
    · cases h
    case isFalse hsz =>
      cases h
      exact ⟨info, heq, by omega, rfl⟩

/-- Inversion of a successful `encryptResponse`: the returned payload is the
symmetric encryption of the serialized response under the session material
derived from the two RNG draws, plus the RSA wrap of the serialized session
blob under the account keypair. -/
theorem encryptResponse_ok_inv {redis : List (String × String)} {responseData : Json}
    {apiKey algorithm : String} {rand32 rand16 : List Nat} {p : EncryptedPayload}
    {ops : List CryptoOp}
    (h : encryptResponse redis responseData apiKey algorithm rand32 rand16 = (.ok p, ops)) :
    ∃ pk info,
      parseRsaKey pk = some info ∧
      encryptData (stringify responseData) (jsSlice (hexEncode rand32) 32)
          (jsSlice (hexEncode rand16) 16) algorithm =
        .ok ⟨algorithm, jsSlice (hexEncode rand32) 32, jsSlice (hexEncode rand16) 16,
          stringify responseData⟩ ∧
      p.encryptedData = some ⟨algorithm, jsSlice (hexEncode rand32) 32,
          jsSlice (hexEncode rand16) 16, stringify responseData⟩ ∧
      p.encryptedKey = some (.pubEnc info.id (stringify (.obj
          [("key", .str (jsSlice (hexEncode rand32) 32)),
           ("iv", .str (jsSlice (hexEncode rand16) 16))]))) := by
  unfold encryptResponse at h
  split at h
  · exact Except.noConfusion (congrArg Prod.fst h)
  split at h
  · exact Except.noConfusion (congrArg Prod.fst h)
  dsimp only at h
  split at h
  · exact Except.noConfusion (congrArg Prod.fst h)
  case h_2 cipher henc =>
    split at h
    · exact Except.noConfusion (congrArg Prod.fst h)
    case h_2 pk hpk =>
      split at h
      · exact Except.noConfusion (congrArg Prod.fst h)
      case h_2 wrapped hkey =>
        obtain ⟨info, hinfo, _, hw⟩ := encryptKey_ok_inv hkey
        obtain ⟨hc, -⟩ := encryptData_ok_inv henc
        have h1 : (Except.ok ⟨some cipher, some wrapped⟩ : Except AppError EncryptedPayload) =
            .ok p := congrArg Prod.fst h
        injection h1 with h1
        exact ⟨pk, info, hinfo, hc ▸ henc, by rw [← h1, hc], by rw [← h1, hw]⟩

/-- Two strings with equal character lists are equal. -/
theorem strExt (a b : String) (h : a.data = b.data) : a = b := by
  cases a; cases b; cases h; rfl

/-- Characters of a concatenation are the concatenated character lists. -/
theorem strDataAppend (a b : String) : (a ++ b).data = a.data ++ b.data := by
  cases a; cases b; rfl

/-- No character of a hex-derived slice needs JSON escaping. -/
theorem jsSlice_hexEncode_no_escape (r : List Nat) (n : Nat) :
    ∀ c ∈ (jsSlice (hexEncode r) n).data, escapeJsonChar c = [c] := by
  intro c hc
  exact hexAlphabet_no_escape c
    (hexEncode_mem_hexAlphabet r c (List.mem_of_mem_take hc))

/-- The serialized session blob `{"key": k, "iv": i}` determines `k` and `i`,
for strings that serialize without escaping and keys of equal length. -/
theorem sessionBlob_inj (k1 i1 k2 i2 : String)
    (hk1 : ∀ c ∈ k1.data, escapeJsonChar c = [c])
    (hk2 : ∀ c ∈ k2.data, escapeJsonChar c = [c])
    (hi1 : ∀ c ∈ i1.data, escapeJsonChar c = [c])
    (hi2 : ∀ c ∈ i2.data, escapeJsonChar c = [c])
    (hlen : k1.length = k2.length)
    (heq : stringify (.obj [("key", .str k1), ("iv", .str i1)]) =
           stringify (.obj [("key", .str k2), ("iv", .str i2)])) :
    k1 = k2 ∧ i1 = i2 := by
  have hd := congrArg String.data heq
  simp only [stringify, stringifyFields, escapeJson_eq_self k1 hk1,
    escapeJson_eq_self i1 hi1, escapeJson_eq_self k2 hk2, escapeJson_eq_self i2 hi2,
    strDataAppend, List.append_assoc] at hd
  have hd2 := List.append_cancel_left (List.append_cancel_left (List.append_cancel_left
    (List.append_cancel_left (List.append_cancel_left hd))))
  have hlen2 : k1.data.length = k2.data.length := hlen
  obtain ⟨hk, htail⟩ := List.append_inj hd2 hlen2
  have htail2 := List.append_cancel_left (List.append_cancel_left (List.append_cancel_left
    (List.append_cancel_left (List.append_cancel_left (List.append_cancel_left htail)))))
  have hi := (List.append_inj' htail2 rfl).1
  exact ⟨strExt k1 k2 hk, strExt i1 i2 hi⟩

/-! Section: Claim theorems: error handling of the composite operations -/

/-- C4: whenever `encryptedData` or `encryptedKey` is missing from the input
payload, `decryptRequest` fails with the AuthenticationError of the source's
field check and its operation log is empty: no key unwrap and no symmetric
decryption happens before the failure. -/
theorem decryptRequest_missing_field_rejects_without_crypto
    (data : EncryptedPayload) (publicKey algorithm : String)
    (h : data.encryptedData = none ∨ data.encryptedKey = none) :
    decryptRequest data publicKey algorithm =
      (.error (.authenticationError "encrypted data, encrypted key cannot null"), []) := by
  obtain ⟨ed, ek⟩ := data
  cases ed <;> cases ek <;> first | rfl | (rcases h with h | h <;> simp at h)

/-- Witness for C4 at a concrete empty payload. -/
theorem decryptRequest_missing_field_rejects_without_crypto_witness :
    decryptRequest ⟨none, none⟩ "RSAKEY:1:256:priv" "aes-256-cbc" =
      (.error (.authenticationError "encrypted data, encrypted key cannot null"), []) :=
  decryptRequest_missing_field_rejects_without_crypto ⟨none, none⟩ "RSAKEY:1:256:priv"
    "aes-256-cbc" (Or.inl rfl)

/-- C5: for an API key with no record in the credential store,
`encryptResponse` fails with ResourceNotFound and its operation log is
empty: no key or iv generation, no encryption, no key wrapping. -/
theorem encryptResponse_unknown_key_rejects_without_crypto
    (redis : List (String × String)) (responseData : Json)
    (apiKey algorithm : String) (rand32 rand16 : List Nat)
    (h : redisGet redis apiKey = none) :
    encryptResponse redis responseData apiKey algorithm rand32 rand16 =
      (.error (.resourceNotFound "Invalid api key"), []) := by
  unfold encryptResponse
  rw [h]

/-- Witness for C5 at a concrete store without the key. -/
theorem encryptResponse_unknown_key_rejects_without_crypto_witness :
    encryptResponse [("k1", "record")] (.obj [("ok", .bool true)]) "other" "aes-256-cbc"
        (List.range 32) (List.range 16) =
      (.error (.resourceNotFound "Invalid api key"), []) :=
  encryptResponse_unknown_key_rejects_without_crypto [("k1", "record")]
    (.obj [("ok", .bool true)]) "other" "aes-256-cbc" (List.range 32) (List.range 16) rfl

/-- C7: a backend reply carrying neither `data` nor `error` makes the relay
dispatcher reject with a ServiceError whose message names the bound
endpoint URL. -/
theorem relay_empty_reply_rejects_service_error (url : String) (response : RpcResponse)
    (he : response.error = none) (hd : response.data = none) :
    relay url response = .rejected (.serviceError (url ++ " is not found")) := by
  unfold relay
  rw [he, hd]
  rfl

/-- Witness for C7 at a concrete endpoint and empty reply. -/
theorem relay_empty_reply_rejects_service_error_witness :
    relay "localhost:50051" ⟨none, none⟩ =
      .rejected (.serviceError ("localhost:50051" ++ " is not found")) :=
  relay_empty_reply_rejects_service_error "localhost:50051" ⟨none, none⟩ rfl rfl

/-- C6: a backend reply with a (truthy) `error` field whose JSON parses makes
the relay dispatcher reject with a ParserError carrying exactly the
`message`, `extensions` and `locations` fields read off that parsed JSON. -/
theorem relay_error_reply_rejects_parser_error (url : String) (response : RpcResponse)
    (s : String) (j : Json) (hs : response.error = some s) (hne : s ≠ "")
    (hp : parseJson s = some j) :
    relay url response =
      .rejected (.parserError (jget j "message") (jget j "extensions") (jget j "locations")) := by
  unfold relay
  rw [hs]
  have ht : truthy (some s) = true := by
    simp [truthy, hne]
  rw [ht, if_pos rfl]
  have hg : (some s).getD "" = s := rfl
  rw [hg, hp]

/-- Witness for C6 at a concrete backend error payload. -/
theorem relay_error_reply_rejects_parser_error_witness :
    relay "localhost:50051"
        ⟨none, some "\x7b\"message\":\"boom\",\"extensions\":\x7b\"code\":\"BAD\"\x7d\x7d"⟩ =
      .rejected (.parserError (some (.str "boom"))
        (some (.obj [("code", .str "BAD")])) none) :=
  relay_error_reply_rejects_parser_error "localhost:50051"
    ⟨none, some "\x7b\"message\":\"boom\",\"extensions\":\x7b\"code\":\"BAD\"\x7d\x7d"⟩
    "\x7b\"message\":\"boom\",\"extensions\":\x7b\"code\":\"BAD\"\x7d\x7d"
    (.obj [("message", .str "boom"), ("extensions", .obj [("code", .str "BAD")])])
    rfl (by decide) rfl

/-- C9: with both fields present, any failure of the unwrap/parse/decrypt
pipeline makes `decryptRequest` return an AuthenticationError carrying the
underlying failure's message, and no plaintext. -/
theorem decryptRequest_pipeline_failure_rejects_auth_error
    (data : EncryptedPayload) (d : SymCipher) (k : RsaCipher)
    (publicKey algorithm m : String) (ops : List CryptoOp)
    (hd : data.encryptedData = some d) (hk : data.encryptedKey = some k)
    (hb : decryptRequestBody d k publicKey algorithm = (.error m, ops)) :
    decryptRequest data publicKey algorithm = (.error (.authenticationError m), ops) := by
  unfold decryptRequest
  rw [hd, hk]
  dsimp only
  rw [hb]

/-- Witness for C9: a wrapped key made with `publicEncrypt` cannot be
unwrapped by `decryptKey`, and the padding failure message is re-raised as
the AuthenticationError message. -/
theorem decryptRequest_pipeline_failure_rejects_auth_error_witness :
    decryptRequest
        ⟨some ⟨"aes-256-cbc", "k", "i", "p"⟩, some (.pubEnc 1 "blob")⟩
        "RSAKEY:1:256:priv" "aes-256-cbc" =
      (.error (.authenticationError "publicDecrypt: padding check failed"),
        [.rsaPublicDecrypt]) :=
  decryptRequest_pipeline_failure_rejects_auth_error
    ⟨some ⟨"aes-256-cbc", "k", "i", "p"⟩, some (.pubEnc 1 "blob")⟩
    ⟨"aes-256-cbc", "k", "i", "p"⟩ (.pubEnc 1 "blob")
    "RSAKEY:1:256:priv" "aes-256-cbc" "publicDecrypt: padding check failed"
    [.rsaPublicDecrypt] rfl rfl rfl

/-- C8: the error translator answers with status 200 and a body holding the
single entry `{code, message, ...rest}`; a lookup of any field in that entry
agrees with a lookup in the incoming error object, so every own field of the
error (code, message and all extras) is forwarded and none is dropped. -/
theorem handleError_status_200_forwards_every_field
    (err : List (String × Json)) (c m : Json)
    (hc : err.lookup "code" = some c) (hm : err.lookup "message" = some m) :
    handleError err = ⟨200, .obj [("errors", .arr [.obj (handleErrorEntry err)])]⟩ ∧
      ∀ k, (handleErrorEntry err).lookup k = err.lookup k := by
  refine ⟨rfl, fun k => ?_⟩
  unfold handleErrorEntry
  rw [hc, hm]
  by_cases hk1 : k = "code"
  · subst hk1
    simpa [List.lookup] using hc.symm
  · by_cases hk2 : k = "message"
    · subst hk2
      simpa [List.lookup] using hm.symm
    · have hne1 : (k == "code") = false := by
        simpa [beq_eq_false_iff_ne] using hk1
      have hne2 : (k == "message") = false := by
        simpa [beq_eq_false_iff_ne] using hk2
      simp only [List.cons_append, List.nil_append, List.lookup, hne1, hne2]
      exact lookup_filter_keep _ err k (fun v => by simp [hk1, hk2])

/-- Witness for C8 at a concrete error object with an extra `extensions`
field. -/
theorem handleError_status_200_forwards_every_field_witness :
    handleError [("code", .str "E"), ("message", .str "m"), ("extensions", .obj [])] =
        ⟨200, .obj [("errors", .arr [.obj (handleErrorEntry
          [("code", .str "E"), ("message", .str "m"), ("extensions", .obj [])])])]⟩ ∧
      (handleErrorEntry [("code", .str "E"), ("message", .str "m"),
          ("extensions", .obj [])]).lookup "extensions" = some (.obj []) :=
  ⟨(handleError_status_200_forwards_every_field
      [("code", .str "E"), ("message", .str "m"), ("extensions", .obj [])]
      (.str "E") (.str "m") rfl rfl).1,
    (handleError_status_200_forwards_every_field
      [("code", .str "E"), ("message", .str "m"), ("extensions", .obj [])]
      (.str "E") (.str "m") rfl rfl).2 "extensions"⟩

/-! Section: Claim theorems: session material, freshness, and the round-trip -/

/-- C10: the session key and iv `encryptResponse` generates are lowercase hex
strings: the key is the first 32 characters of the hex encoding of the
32-byte draw — that is, the hex encoding of its first 16 bytes, so it
carries 128 bits of randomness, not 256 — and the iv is the first 16
characters of the hex encoding of the 16-byte draw, the hex encoding of its
first 8 bytes. -/
theorem encryptResponse_session_material_is_hex
    (redis : List (String × String)) (responseData : Json) (apiKey algorithm : String)
    (rand32 rand16 : List Nat) (p : EncryptedPayload) (ops : List CryptoOp)
    (h32 : rand32.length = 32) (h16 : rand16.length = 16)
    (h : encryptResponse redis responseData apiKey algorithm rand32 rand16 = (.ok p, ops)) :
    p.encryptedData = some ⟨algorithm, jsSlice (hexEncode rand32) 32,
        jsSlice (hexEncode rand16) 16, stringify responseData⟩ ∧
      jsSlice (hexEncode rand32) 32 = hexEncode (rand32.take 16) ∧
      (jsSlice (hexEncode rand32) 32).length = 32 ∧
      (∀ c ∈ (jsSlice (hexEncode rand32) 32).data, c ∈ hexAlphabet) ∧
      jsSlice (hexEncode rand16) 16 = hexEncode (rand16.take 8) ∧
      (jsSlice (hexEncode rand16) 16).length = 16 ∧
      (∀ c ∈ (jsSlice (hexEncode rand16) 16).data, c ∈ hexAlphabet) := by
  obtain ⟨pk, info, hpk, henc, hd, hk⟩ := encryptResponse_ok_inv h
  have hkey32 : jsSlice (hexEncode rand32) 32 = hexEncode (rand32.take 16) := by
    have : (32 : Nat) = 2 * 16 := rfl
    rw [this, jsSlice_hexEncode]
  have hiv16 : jsSlice (hexEncode rand16) 16 = hexEncode (rand16.take 8) := by
    have : (16 : Nat) = 2 * 8 := rfl
    rw [this, jsSlice_hexEncode]
  refine ⟨hd, hkey32, ?_, ?_, hiv16, ?_, ?_⟩
  · rw [hkey32, hexEncode_length, List.length_take, h32]
    omega
  · intro c hc
    exact hexEncode_mem_hexAlphabet rand32 c (List.mem_of_mem_take hc)
  · rw [hiv16, hexEncode_length, List.length_take, h16]
    omega
  · intro c hc
    exact hexEncode_mem_hexAlphabet rand16 c (List.mem_of_mem_take hc)

/-- Witness for C10 at concrete RNG draws: the session key is the hex
encoding of the first 16 of the 32 drawn bytes. -/
theorem encryptResponse_session_material_is_hex_witness :
    (encryptResponse [("k1", "\x7b\"account\":\x7b\"publicKey\":\"RSAKEY:1:256:pub\"\x7d\x7d")]
        (.obj [("ok", .bool true)]) "k1" "aes-256-cbc" (List.range 32)
        (List.range 16)).fst.isOk = true ∧
      jsSlice (hexEncode (List.range 32)) 32 = hexEncode ((List.range 32).take 16) :=
  ⟨rfl,
    (encryptResponse_session_material_is_hex
      [("k1", "\x7b\"account\":\x7b\"publicKey\":\"RSAKEY:1:256:pub\"\x7d\x7d")]
      (.obj [("ok", .bool true)]) "k1" "aes-256-cbc" (List.range 32) (List.range 16)
      ⟨some ⟨"aes-256-cbc", "000102030405060708090a0b0c0d0e0f", "0001020304050607",
        "\x7b\"ok\":true\x7d"⟩,
        some (.pubEnc 1
          "\x7b\"key\":\"000102030405060708090a0b0c0d0e0f\",\"iv\":\"0001020304050607\"\x7d")⟩
      [.randomBytes 32, .randomBytes 16, .symEncrypt, .rsaPublicEncrypt]
      rfl rfl rfl).2.1⟩

/-- C3: two `encryptResponse` calls with identical store, payload, apiKey
and algorithm whose freshly generated session material differs (different
derived key or different derived iv) return different `encryptedData` and
different `encryptedKey`. -/
theorem encryptResponse_fresh_session_distinct_ciphertexts
    (redis : List (String × String)) (responseData : Json) (apiKey algorithm : String)
    (r32 r16 q32 q16 : List Nat) (p q : EncryptedPayload) (ops1 ops2 : List CryptoOp)
    (h1 : encryptResponse redis responseData apiKey algorithm r32 r16 = (.ok p, ops1))
    (h2 : encryptResponse redis responseData apiKey algorithm q32 q16 = (.ok q, ops2))
    (hfresh : jsSlice (hexEncode r32) 32 ≠ jsSlice (hexEncode q32) 32 ∨
              jsSlice (hexEncode r16) 16 ≠ jsSlice (hexEncode q16) 16) :
    p.encryptedData ≠ q.encryptedData ∧ p.encryptedKey ≠ q.encryptedKey := by
  obtain ⟨pk1, info1, hpk1, henc1, hd1, hk1⟩ := encryptResponse_ok_inv h1
  obtain ⟨pk2, info2, hpk2, henc2, hd2, hk2⟩ := encryptResponse_ok_inv h2
  obtain ⟨-, kl1, il1, halg1, hkl1, hil1⟩ := encryptData_ok_inv henc1
  obtain ⟨-, kl2, il2, halg2, hkl2, hil2⟩ := encryptData_ok_inv henc2
  rw [halg1] at halg2
  injection halg2 with hpair
  injection hpair with hkl hil
  constructor
  · rw [hd1, hd2]
    intro hcon
    simp only [Option.some.injEq, SymCipher.mk.injEq] at hcon
    obtain ⟨-, hkeq, hiveq, -⟩ := hcon
    rcases hfresh with hf | hf
    · exact hf hkeq
    · exact hf hiveq
  · rw [hk1, hk2]
    intro hcon
    simp only [Option.some.injEq, RsaCipher.pubEnc.injEq] at hcon
    obtain ⟨-, hblob⟩ := hcon
    have hlen : (jsSlice (hexEncode r32) 32).length = (jsSlice (hexEncode q32) 32).length := by
      rw [hkl1, hkl2, hkl]
    obtain ⟨hkeq, hiveq⟩ := sessionBlob_inj _ _ _ _
      (jsSlice_hexEncode_no_escape r32 32) (jsSlice_hexEncode_no_escape q32 32)
      (jsSlice_hexEncode_no_escape r16 16) (jsSlice_hexEncode_no_escape q16 16)
      hlen hblob
    rcases hfresh with hf | hf
    · exact hf hkeq
    · exact hf hiveq

/-- Witness for C3: two concrete calls differing only in the RNG draws give
different ciphertext and different wrapped key. -/
theorem encryptResponse_fresh_session_distinct_ciphertexts_witness :
    (⟨some ⟨"aes-256-cbc", "000102030405060708090a0b0c0d0e0f", "0001020304050607",
        "\x7b\"ok\":true\x7d"⟩,
      some (.pubEnc 1
        "\x7b\"key\":\"000102030405060708090a0b0c0d0e0f\",\"iv\":\"0001020304050607\"\x7d")⟩ :
        EncryptedPayload).encryptedData ≠
      (⟨some ⟨"aes-256-cbc", "00000000000000000000000000000000", "0000000000000000",
        "\x7b\"ok\":true\x7d"⟩,
      some (.pubEnc 1
        "\x7b\"key\":\"00000000000000000000000000000000\",\"iv\":\"0000000000000000\"\x7d")⟩ :
        EncryptedPayload).encryptedData ∧
    (⟨some ⟨"aes-256-cbc", "000102030405060708090a0b0c0d0e0f", "0001020304050607",
        "\x7b\"ok\":true\x7d"⟩,
      some (.pubEnc 1
        "\x7b\"key\":\"000102030405060708090a0b0c0d0e0f\",\"iv\":\"0001020304050607\"\x7d")⟩ :
        EncryptedPayload).encryptedKey ≠
      (⟨some ⟨"aes-256-cbc", "00000000000000000000000000000000", "0000000000000000",
        "\x7b\"ok\":true\x7d"⟩,
      some (.pubEnc 1
        "\x7b\"key\":\"00000000000000000000000000000000\",\"iv\":\"0000000000000000\"\x7d")⟩ :
        EncryptedPayload).encryptedKey :=
  encryptResponse_fresh_session_distinct_ciphertexts
    [("k1", "\x7b\"account\":\x7b\"publicKey\":\"RSAKEY:1:256:pub\"\x7d\x7d")]
    (.obj [("ok", .bool true)]) "k1" "aes-256-cbc"
    (List.range 32) (List.range 16) (List.replicate 32 0) (List.replicate 16 0)
    _ _ _ _ rfl rfl (Or.inl (by decide))

/-- C1 counterexample: at a concrete store, payload, keypair and RNG draws,
`encryptResponse` succeeds, but `decryptRequest` with the matching private
key and the same algorithm does not return the JSON serialization of the
payload — it fails with an AuthenticationError, because `decryptKey`
performs RSA public-decrypt, which cannot open what `encryptKey`
public-encrypted. -/
theorem claim_C1_falsified_at_concrete_input :
    encryptResponse [("k1", "\x7b\"account\":\x7b\"publicKey\":\"RSAKEY:1:256:pub\"\x7d\x7d")]
        (.obj [("ok", .bool true)]) "k1" "aes-256-cbc" (List.range 32) (List.range 16) =
      (.ok ⟨some ⟨"aes-256-cbc", "000102030405060708090a0b0c0d0e0f", "0001020304050607",
          "\x7b\"ok\":true\x7d"⟩,
        some (.pubEnc 1
          "\x7b\"key\":\"000102030405060708090a0b0c0d0e0f\",\"iv\":\"0001020304050607\"\x7d")⟩,
        [.randomBytes 32, .randomBytes 16, .symEncrypt, .rsaPublicEncrypt]) ∧
    decryptRequest
        ⟨some ⟨"aes-256-cbc", "000102030405060708090a0b0c0d0e0f", "0001020304050607",
          "\x7b\"ok\":true\x7d"⟩,
        some (.pubEnc 1
          "\x7b\"key\":\"000102030405060708090a0b0c0d0e0f\",\"iv\":\"0001020304050607\"\x7d")⟩
        "RSAKEY:1:256:priv" "aes-256-cbc" =
      (.error (.authenticationError "publicDecrypt: padding check failed"),
        [.rsaPublicDecrypt]) ∧
    (decryptRequest
        ⟨some ⟨"aes-256-cbc", "000102030405060708090a0b0c0d0e0f", "0001020304050607",
          "\x7b\"ok\":true\x7d"⟩,
        some (.pubEnc 1
          "\x7b\"key\":\"000102030405060708090a0b0c0d0e0f\",\"iv\":\"0001020304050607\"\x7d")⟩
        "RSAKEY:1:256:priv" "aes-256-cbc").fst ≠
      .ok (stringify (.obj [("ok", .bool true)])) :=
  ⟨rfl, rfl, fun hcon => nomatch hcon⟩

/-- C1 (amended): applying `decryptRequest` — with any key string the crypto
API accepts, in particular the matching private key, and any algorithm — to
the payload returned by a successful `encryptResponse` always fails with the
AuthenticationError wrapping the RSA padding failure, and never returns the
JSON serialization of the payload: `decryptKey` is RSA public-decrypt and
cannot open the `encryptKey`-wrapped session blob. -/
theorem decryptRequest_of_encryptResponse_always_rejects
    (redis : List (String × String)) (responseData : Json)
    (apiKey algorithm algorithm2 key : String) (rand32 rand16 : List Nat)
    (p : EncryptedPayload) (ops : List CryptoOp) (info : RsaKeyInfo)
    (hok : encryptResponse redis responseData apiKey algorithm rand32 rand16 = (.ok p, ops))
    (hkey : parseRsaKey key = some info) :
    decryptRequest p key algorithm2 =
      (.error (.authenticationError "publicDecrypt: padding check failed"),
        [.rsaPublicDecrypt]) ∧
    (decryptRequest p key algorithm2).fst ≠ .ok (stringify responseData) := by
  obtain ⟨pk, info1, hpk, henc, hd, hk⟩ := encryptResponse_ok_inv hok
  have hmain : decryptRequest p key algorithm2 =
      (.error (.authenticationError "publicDecrypt: padding check failed"),
        [.rsaPublicDecrypt]) := by
    unfold decryptRequest
    rw [hd, hk]
    dsimp only
    unfold decryptRequestBody decryptKey cryptoPublicDecrypt
    rw [hkey]
  refine ⟨hmain, ?_⟩
  rw [hmain]
  exact fun hcon => nomatch hcon

/-- Witness for the amended C1 at the concrete input of the counterexample. -/
theorem decryptRequest_of_encryptResponse_always_rejects_witness :
    decryptRequest
        ⟨some ⟨"aes-256-cbc", "000102030405060708090a0b0c0d0e0f", "0001020304050607",
          "\x7b\"ok\":true\x7d"⟩,
        some (.pubEnc 1
          "\x7b\"key\":\"000102030405060708090a0b0c0d0e0f\",\"iv\":\"0001020304050607\"\x7d")⟩
        "RSAKEY:1:256:priv" "aes-256-cbc" =
      (.error (.authenticationError "publicDecrypt: padding check failed"),
        [.rsaPublicDecrypt]) :=
  (decryptRequest_of_encryptResponse_always_rejects
    [("k1", "\x7b\"account\":\x7b\"publicKey\":\"RSAKEY:1:256:pub\"\x7d\x7d")]
    (.obj [("ok", .bool true)]) "k1" "aes-256-cbc" "aes-256-cbc" "RSAKEY:1:256:priv"
    (List.range 32) (List.range 16)
    ⟨some ⟨"aes-256-cbc", "000102030405060708090a0b0c0d0e0f", "0001020304050607",
        "\x7b\"ok\":true\x7d"⟩,
      some (.pubEnc 1
        "\x7b\"key\":\"000102030405060708090a0b0c0d0e0f\",\"iv\":\"0001020304050607\"\x7d")⟩
    [.randomBytes 32, .randomBytes 16, .symEncrypt, .rsaPublicEncrypt]
    ⟨1, 256, true⟩ rfl rfl).1

/-- C2 counterexample: at a concrete keypair and blob, `decryptKey` with the
private key applied to the `encryptKey`-wrapped blob does not return the
blob — the RSA public-decrypt padding check fails. -/
theorem claim_C2_falsified_at_concrete_input :
    encryptKey "RSAKEY:1:256:pub" "session" = .ok (.pubEnc 1 "session") ∧
    decryptKey "RSAKEY:1:256:priv" (.pubEnc 1 "session") =
      .error "publicDecrypt: padding check failed" ∧
    decryptKey "RSAKEY:1:256:priv" (.pubEnc 1 "session") ≠ .ok "session" :=
  ⟨rfl, rfl, fun hcon => nomatch hcon⟩

/-- C2 (amended): `decryptKey` is not the inverse of `encryptKey` — applied
to any `encryptKey` output it never returns a plaintext, for any key string.
It is instead the inverse of the private-encrypt operation: for a matching
keypair, `decryptKey` with the public key recovers any blob small enough
that was wrapped by `crypto.privateEncrypt` with the private key. -/
theorem decryptKey_inverts_privateEncrypt_not_encryptKey
    (pub priv blob anyKey m s : String) (i sz j : Nat)
    (hpub : parseRsaKey pub = some ⟨i, sz, false⟩)
    (hpriv : parseRsaKey priv = some ⟨i, sz, true⟩)
    (hsz : blob.length + 11 ≤ sz) :
    cryptoPrivateEncrypt priv blob = .ok (.privEnc i blob) ∧
    decryptKey pub (.privEnc i blob) = .ok blob ∧
    decryptKey anyKey (.pubEnc j m) ≠ .ok s := by
  refine ⟨?_, ?_, ?_⟩
  · unfold cryptoPrivateEncrypt
    rw [hpriv]
    dsimp only
    rw [if_neg (by simp), if_neg (by omega)]
  · unfold decryptKey cryptoPublicDecrypt
    rw [hpub]
    dsimp only
    rw [if_pos rfl]
  · intro hcon
    unfold decryptKey cryptoPublicDecrypt at hcon
    cases hpk : parseRsaKey anyKey
    · rw [hpk] at hcon
      exact Except.noConfusion hcon
    · rw [hpk] at hcon
      exact Except.noConfusion hcon

/-- Witness for the amended C2 at a concrete keypair and blob. -/
theorem decryptKey_inverts_privateEncrypt_not_encryptKey_witness :
    cryptoPrivateEncrypt "RSAKEY:2:256:priv" "blob" = .ok (.privEnc 2 "blob") ∧
    decryptKey "RSAKEY:2:256:pub" (.privEnc 2 "blob") = .ok "blob" ∧
    decryptKey "RSAKEY:9:128:pub" (.pubEnc 9 "zzz") ≠ .ok "zzz" :=
  decryptKey_inverts_privateEncrypt_not_encryptKey "RSAKEY:2:256:pub" "RSAKEY:2:256:priv"
    "blob" "RSAKEY:9:128:pub" "zzz" "zzz" 2 256 9 rfl rfl (by decide)

end Gateway



